import Mathlib

/-!
AtomX vault and swap router: a shallow embedding of
programs/vault/src/vault.rs and programs/swap-router/src/router.rs,
with theorems checking the specification's statements about share
accounting, arbitrage settlement and instruction forwarding.

Machine integers are modelled as Nat together with the explicit bound
checks the Rust code performs (checked_add, checked_mul, checked_div,
checked_sub, try_into); fallible instructions return Except.
-/

namespace AtomX

/-- Pubkeys are modelled as abstract identifiers with decidable equality. -/
abbrev Pubkey := Nat

/-- Wrapped SOL mint address (vault.rs line 10): a fixed, distinguished key. -/
def WSOL_MINT : Pubkey := 1

/-- Jupiter V6 program id (router.rs line 12): a fixed key distinct from WSOL_MINT. -/
def JUPITER_V6 : Pubkey := 2

/-- Size bound of a u64 value. -/
def U64_SIZE : Nat := 2 ^ 64

/-- Size bound of a u128 value. -/
def U128_SIZE : Nat := 2 ^ 128

/-- Rust u64 checked_add. -/
def checked_add (a b : Nat) : Option Nat :=
  if a + b < U64_SIZE then some (a + b) else none

/-- Rust u64 checked_mul. -/
def checked_mul (a b : Nat) : Option Nat :=
  if a * b < U64_SIZE then some (a * b) else none

/-- Rust u128 checked_mul. -/
def checked_mul128 (a b : Nat) : Option Nat :=
  if a * b < U128_SIZE then some (a * b) else none

/-- Rust checked_div (width independent: fails exactly on division by zero). -/
def checked_div (a b : Nat) : Option Nat :=
  if b = 0 then none else some (a / b)

/-- Rust u64 checked_sub. -/
def checked_sub (a b : Nat) : Option Nat :=
  if b ≤ a then some (a - b) else none

/-- Rust u128 to u64 try_into: fails when the value does not fit in 64 bits. -/
def try_into_u64 (a : Nat) : Option Nat :=
  if a < U64_SIZE then some a else none

/-- ok_or: lift an Option to Except, raising the given error on none. -/
def liftOpt {ε α : Type} (o : Option α) (e : ε) : Except ε α :=
  match o with
  | some a => Except.ok a
  | none => Except.error e

/-- programs/vault/src/errors.rs ErrorCode. -/
inductive ErrorCode
  | InsufficientProfit
  | InsufficientShares
  | InvalidSwapRouter
  | MathOverflow
  | InvalidAuthority
  | SlippageExceeded
  | InvalidTokenMint
  | InsufficientVaultBalance
  | InvalidMinProfit
  deriving DecidableEq, Repr

/-- Outcome channel of a vault instruction: one of the vault error codes, a
failed SPL token transfer CPI, or a failed swap-router/Jupiter CPI (the latter
two are propagated by the question-mark operator in the Rust code). -/
inductive VaultErr
  | code (e : ErrorCode)
  | transferFailed
  | swapFailed
  deriving DecidableEq, Repr

/-- programs/vault/src/state.rs Vault. -/
structure Vault where
  authority : Pubkey
  swap_router : Pubkey
  total_shares : Nat
  bump : Nat
  deriving DecidableEq, Repr

/-- programs/vault/src/state.rs UserPosition. -/
structure UserPosition where
  owner : Pubkey
  shares : Nat
  deriving DecidableEq, Repr

/-- An SPL token account: its mint and its balance. -/
structure TokenAccount where
  mint : Pubkey
  amount : Nat
  deriving DecidableEq, Repr

/-- events.rs Deposited. -/
structure Deposited where
  user : Pubkey
  amount : Nat
  shares : Nat
  deriving DecidableEq, Repr

/-- events.rs Withdrawn. -/
structure Withdrawn where
  user : Pubkey
  amount : Nat
  shares : Nat
  deriving DecidableEq, Repr

/-- events.rs ArbitrageExecuted. -/
structure ArbitrageExecuted where
  executor : Pubkey
  profit : Nat
  executor_fee : Nat
  vault_profit : Nat
  deriving DecidableEq, Repr

/-- SPL token transfer CPI: moves amount from src to dst. The CPI fails (and
the whole instruction with it) when the source balance is insufficient or the
destination balance would overflow u64. -/
def spl_transfer (src dst : TokenAccount) (amount : Nat) :
    Option (TokenAccount × TokenAccount) :=
  if amount ≤ src.amount ∧ dst.amount + amount < U64_SIZE then
    some ({ src with amount := src.amount - amount },
          { dst with amount := dst.amount + amount })
  else none

/-- Share issuance on deposit (vault.rs lines 42-50). vaultBalanceRead is the
value the code reads from ctx.accounts.vault_token.amount at line 45. -/
def depositShares (totalShares amount vaultBalanceRead : Nat) :
    Except VaultErr Nat :=
  if totalShares = 0 then Except.ok amount
  else do
    let p ← liftOpt (checked_mul amount totalShares)
        (VaultErr.code ErrorCode.MathOverflow)
    liftOpt (checked_div p vaultBalanceRead)
        (VaultErr.code ErrorCode.MathOverflow)

/-- Result state of a successful deposit. -/
structure DepositResult where
  vault : Vault
  user_position : UserPosition
  user_token : TokenAccount
  vault_token : TokenAccount
  event : Deposited
  deriving DecidableEq, Repr

/-- vault.rs deposit (lines 26-65). The arguments user_token and vault_token
are the account states deserialized at instruction entry. After the transfer
CPI the Anchor Account struct is not reloaded, so the read of
ctx.accounts.vault_token.amount at line 45 yields the cached, pre-transfer
balance (contrast execute_arbitrage, which calls reload() before re-reading). -/
def deposit (vault : Vault) (user_position : UserPosition) (user : Pubkey)
    (user_token vault_token : TokenAccount) (amount : Nat) :
    Except VaultErr DepositResult := do
  let acc ← liftOpt (spl_transfer user_token vault_token amount)
      VaultErr.transferFailed
  let shares ← depositShares vault.total_shares amount vault_token.amount
  let ups ← liftOpt (checked_add user_position.shares shares)
      (VaultErr.code ErrorCode.MathOverflow)
  let ts ← liftOpt (checked_add vault.total_shares shares)
      (VaultErr.code ErrorCode.MathOverflow)
  Except.ok
    { vault := { vault with total_shares := ts }
      user_position := { owner := user, shares := ups }
      user_token := acc.1
      vault_token := acc.2
      event := { user := user, amount := amount, shares := shares } }

/-- Redemption amount on withdraw (vault.rs lines 164-177), computed with
u128 intermediates and converted back to u64. -/
def withdrawAmount (totalShares shares vaultBalance : Nat) :
    Except VaultErr Nat :=
  if shares = totalShares then Except.ok vaultBalance
  else do
    let numerator ← liftOpt (checked_mul128 shares vaultBalance)
        (VaultErr.code ErrorCode.MathOverflow)
    let a ← liftOpt (checked_div numerator totalShares)
        (VaultErr.code ErrorCode.MathOverflow)
    liftOpt (try_into_u64 a) (VaultErr.code ErrorCode.MathOverflow)

/-- Result state of a successful withdraw. -/
structure WithdrawResult where
  vault : Vault
  user_position : UserPosition
  vault_token : TokenAccount
  user_token : TokenAccount
  event : Withdrawn
  deriving DecidableEq, Repr

/-- vault.rs withdraw (lines 158-208). -/
def withdraw (vault : Vault) (user_position : UserPosition) (user : Pubkey)
    (vault_token user_token : TokenAccount) (shares : Nat) :
    Except VaultErr WithdrawResult := do
  if user_position.shares < shares then
    Except.error (VaultErr.code ErrorCode.InsufficientShares)
  else do
    let amount ← withdrawAmount vault.total_shares shares vault_token.amount
    let acc ← liftOpt (spl_transfer vault_token user_token amount)
        VaultErr.transferFailed
    let ups ← liftOpt (checked_sub user_position.shares shares)
        (VaultErr.code ErrorCode.MathOverflow)
    let ts ← liftOpt (checked_sub vault.total_shares shares)
        (VaultErr.code ErrorCode.MathOverflow)
    Except.ok
      { vault := { vault with total_shares := ts }
        user_position := { user_position with shares := ups }
        vault_token := acc.1
        user_token := acc.2
        event := { user := user, amount := amount, shares := shares } }

/-- Result state of a successful execute_arbitrage. The vault record itself is
taken by shared reference in the Rust code and is never mutated; it is carried
through unchanged. -/
structure ArbResult where
  vault : Vault
  vault_token : TokenAccount
  executor_token : TokenAccount
  event : ArbitrageExecuted
  deriving DecidableEq, Repr

/-- vault.rs execute_arbitrage (lines 67-156). The swap-router CPI is opaque:
swap_cpi_result is none when the CPI fails (the error propagates), and
some fb when it succeeds, where fb is the vault token balance observed by the
reload() at line 115. swap_router_program is the account supplied by the
caller, passed to the CPI as the target program. -/
def execute_arbitrage (vault : Vault) (vault_token executor_token : TokenAccount)
    (executor : Pubkey) (swap_router_program : Pubkey)
    (jupiter_instruction_data : List Nat) (min_profit : Nat)
    (swap_cpi_result : Option Nat) : Except VaultErr ArbResult := do
  if vault_token.mint ≠ WSOL_MINT then
    Except.error (VaultErr.code ErrorCode.InvalidTokenMint)
  else if executor_token.mint ≠ WSOL_MINT then
    Except.error (VaultErr.code ErrorCode.InvalidTokenMint)
  else do
    let initial_balance := vault_token.amount
    if initial_balance = 0 then
      Except.error (VaultErr.code ErrorCode.InsufficientVaultBalance)
    else if min_profit = 0 then
      Except.error (VaultErr.code ErrorCode.InvalidMinProfit)
    else do
      let final_balance ← liftOpt swap_cpi_result VaultErr.swapFailed
      if final_balance ≤ initial_balance then
        Except.error (VaultErr.code ErrorCode.InsufficientProfit)
      else do
        let profit ← liftOpt (checked_sub final_balance initial_balance)
            (VaultErr.code ErrorCode.InsufficientProfit)
        if profit < min_profit then
          Except.error (VaultErr.code ErrorCode.InsufficientProfit)
        else do
          let p10 ← liftOpt (checked_mul profit 10)
              (VaultErr.code ErrorCode.MathOverflow)
          let executor_fee ← liftOpt (checked_div p10 100)
              (VaultErr.code ErrorCode.MathOverflow)
          let acc ← liftOpt (spl_transfer
              { vault_token with amount := final_balance }
              executor_token executor_fee) VaultErr.transferFailed
          Except.ok
            { vault := vault
              vault_token := acc.1
              executor_token := acc.2
              event := { executor := executor, profit := profit,
                         executor_fee := executor_fee,
                         vault_profit := profit - executor_fee } }

/-- programs/swap-router/src/router.rs RouterState. -/
structure RouterState where
  authority : Pubkey
  fee_rate_bps : Nat
  total_swaps : Nat
  total_volume : Nat
  bump : Nat
  deriving DecidableEq, Repr

/-- programs/swap-router/src/router.rs ErrorCode. -/
inductive RouterErrorCode
  | InvalidJupiterProgram
  | InvalidFeeRate
  | EmptyInstructionData
  | Unauthorized
  deriving DecidableEq, Repr

/-- Outcome channel of a router instruction: a router error code, a failed
Jupiter CPI (propagated by the question mark), or the panic of the unwrap on
total_swaps overflow. -/
inductive RouterErr
  | code (e : RouterErrorCode)
  | cpiFailed
  | panicked
  deriving DecidableEq, Repr

/-- Observable cross-program call into the Jupiter aggregator: the instruction
data forwarded, and whether the router signed with the vault PDA seeds
(delegated mode). -/
structure JupiterInvoke where
  data : List Nat
  delegated : Bool
  deriving DecidableEq, Repr

/-- router.rs execute_jupiter_swap (lines 39-84), the direct signing mode.
Returns the trace of attempted Jupiter cross-calls together with the outcome;
cpiOk says whether the opaque Jupiter invocation succeeds. -/
def execute_jupiter_swap (router : RouterState) (jupiter_program : Pubkey)
    (jupiter_instruction_data : List Nat) (cpiOk : Bool) :
    List JupiterInvoke × Except RouterErr RouterState :=
  if jupiter_program ≠ JUPITER_V6 then
    ([], Except.error (RouterErr.code RouterErrorCode.InvalidJupiterProgram))
  else if jupiter_instruction_data = [] then
    ([], Except.error (RouterErr.code RouterErrorCode.EmptyInstructionData))
  else
    match checked_add router.total_swaps 1 with
    | none => ([], Except.error RouterErr.panicked)
    | some n =>
      let ix : JupiterInvoke := { data := jupiter_instruction_data, delegated := false }
      if cpiOk then ([ix], Except.ok { router with total_swaps := n })
      else ([ix], Except.error RouterErr.cpiFailed)

/-- router.rs execute_vault_jupiter_swap (lines 87-122), the delegated signing
mode: validates the Jupiter program id, builds the instruction and invokes it
with the vault PDA seeds. It performs no emptiness check on the instruction
data and does not touch the router state. -/
def execute_vault_jupiter_swap (router : RouterState) (vault_authority : Pubkey)
    (jupiter_program : Pubkey) (jupiter_instruction_data : List Nat)
    (vault_seeds : List (List Nat)) (cpiOk : Bool) :
    List JupiterInvoke × Except RouterErr RouterState :=
  if jupiter_program ≠ JUPITER_V6 then
    ([], Except.error (RouterErr.code RouterErrorCode.InvalidJupiterProgram))
  else
    let ix : JupiterInvoke := { data := jupiter_instruction_data, delegated := true }
    if cpiOk then ([ix], Except.ok router)
    else ([ix], Except.error RouterErr.cpiFailed)

/-- Sum of the shares of a list of user positions. -/
def sumShares (ps : List UserPosition) : Nat :=
  (ps.map UserPosition.shares).sum

/-- The non-full-redemption branch of the spec sentence for Withdraw taken
literally: floor(shares * pool_balance * 2^64 / total_shares) as a 64-bit
value. Stated only to be compared against the code's withdrawAmount. -/
def specLiteralWithdrawAmount (shares pool_balance totalShares : Nat) : Nat :=
  if shares = totalShares then pool_balance
  else shares * pool_balance * 2 ^ 64 / totalShares % 2 ^ 64

section Helpers

theorem except_bind_ok {ε α β : Type} (x : Except ε α) (f : α → Except ε β) (r : β) :
    (x >>= f) = Except.ok r ↔ ∃ a, x = Except.ok a ∧ f a = Except.ok r := by
  cases x <;> simp [Bind.bind, Except.bind]

theorem liftOpt_ok_iff {ε α : Type} (o : Option α) (e : ε) (a : α) :
    liftOpt o e = Except.ok a ↔ o = some a := by
  cases o <;> simp [liftOpt]

theorem checked_add_eq_some {a b c : Nat} :
    checked_add a b = some c ↔ a + b < U64_SIZE ∧ c = a + b := by
  unfold checked_add; split <;> simp_all <;> omega

theorem checked_sub_eq_some {a b c : Nat} :
    checked_sub a b = some c ↔ b ≤ a ∧ c = a - b := by
  unfold checked_sub; split <;> simp_all <;> omega

theorem checked_mul_eq_some {a b c : Nat} :
    checked_mul a b = some c ↔ a * b < U64_SIZE ∧ c = a * b := by
  unfold checked_mul; split <;> simp_all [eq_comm]

theorem checked_mul128_eq_some {a b c : Nat} :
    checked_mul128 a b = some c ↔ a * b < U128_SIZE ∧ c = a * b := by
  unfold checked_mul128; split <;> simp_all [eq_comm]

theorem checked_div_eq_some {a b c : Nat} :
    checked_div a b = some c ↔ b ≠ 0 ∧ c = a / b := by
  unfold checked_div; split <;> simp_all [eq_comm]

theorem try_into_u64_eq_some {a c : Nat} :
    try_into_u64 a = some c ↔ a < U64_SIZE ∧ c = a := by
  unfold try_into_u64; split <;> simp_all [eq_comm]

theorem spl_transfer_eq_some {src dst : TokenAccount} {amount : Nat}
    {p : TokenAccount × TokenAccount} :
    spl_transfer src dst amount = some p ↔
      amount ≤ src.amount ∧ dst.amount + amount < U64_SIZE ∧
      p = ({ src with amount := src.amount - amount },
           { dst with amount := dst.amount + amount }) := by
  unfold spl_transfer; split <;> simp_all <;> tauto

theorem depositShares_ok_iff {ts amount bal s : Nat} :
    depositShares ts amount bal = Except.ok s ↔
      (ts = 0 ∧ s = amount) ∨
      (ts ≠ 0 ∧ amount * ts < U64_SIZE ∧ bal ≠ 0 ∧ s = amount * ts / bal) := by
  unfold depositShares
  by_cases h : ts = 0
  · simp [h, eq_comm]
  · simp only [h, if_neg, except_bind_ok, liftOpt_ok_iff, checked_mul_eq_some,
      checked_div_eq_some, if_false]
    constructor
    · rintro ⟨p, ⟨hp, rfl⟩, hb, rfl⟩
      exact Or.inr ⟨h, hp, hb, rfl⟩
    · rintro (⟨h0, _⟩ | ⟨_, hp, hb, rfl⟩)
      · exact h0.elim
      · exact ⟨amount * ts, ⟨hp, rfl⟩, hb, rfl⟩

theorem withdrawAmount_ok_iff {ts shares bal a : Nat} :
    withdrawAmount ts shares bal = Except.ok a ↔
      (shares = ts ∧ a = bal) ∨
      (shares ≠ ts ∧ shares * bal < U128_SIZE ∧ ts ≠ 0 ∧
       shares * bal / ts < U64_SIZE ∧ a = shares * bal / ts) := by
  unfold withdrawAmount
  by_cases h : shares = ts
  · simp [h, eq_comm]
  · simp only [h, if_neg, except_bind_ok, liftOpt_ok_iff, checked_mul128_eq_some,
      checked_div_eq_some, try_into_u64_eq_some, if_false]
    constructor
    · rintro ⟨n, ⟨hn, rfl⟩, q, ⟨hts, rfl⟩, hfit, rfl⟩
      exact Or.inr ⟨h, hn, hts, hfit, rfl⟩
    · rintro (⟨h0, _⟩ | ⟨_, hn, hts, hfit, rfl⟩)
      · exact h0.elim
      · exact ⟨shares * bal, ⟨hn, rfl⟩, shares * bal / ts, ⟨hts, rfl⟩, hfit, rfl⟩

theorem deposit_ok_elim {vault : Vault} {up : UserPosition} {user : Pubkey}
    {ut vt : TokenAccount} {amount : Nat} {r : DepositResult}
    (h : deposit vault up user ut vt amount = Except.ok r) :
    ∃ acc shares,
      spl_transfer ut vt amount = some acc ∧
      depositShares vault.total_shares amount vt.amount = Except.ok shares ∧
      up.shares + shares < U64_SIZE ∧
      vault.total_shares + shares < U64_SIZE ∧
      r = { vault := { vault with total_shares := vault.total_shares + shares }
            user_position := { owner := user, shares := up.shares + shares }
            user_token := acc.1
            vault_token := acc.2
            event := { user := user, amount := amount, shares := shares } } := by
  unfold deposit at h
  rw [except_bind_ok] at h
  obtain ⟨acc, hT, h⟩ := h
  rw [liftOpt_ok_iff] at hT
  rw [except_bind_ok] at h
  obtain ⟨shares, hS, h⟩ := h
  rw [except_bind_ok] at h
  obtain ⟨ups, hU, h⟩ := h
  rw [liftOpt_ok_iff, checked_add_eq_some] at hU
  rw [except_bind_ok] at h
  obtain ⟨ts, hV, h⟩ := h
  rw [liftOpt_ok_iff, checked_add_eq_some] at hV
  obtain ⟨hU1, rfl⟩ := hU
  obtain ⟨hV1, rfl⟩ := hV
  cases h
  exact ⟨acc, shares, hT, hS, hU1, hV1, rfl⟩

theorem withdraw_ok_elim {vault : Vault} {up : UserPosition} {user : Pubkey}
    {vt ut : TokenAccount} {shares : Nat} {r : WithdrawResult}
    (h : withdraw vault up user vt ut shares = Except.ok r) :
    shares ≤ up.shares ∧ shares ≤ vault.total_shares ∧
    ∃ amount acc,
      withdrawAmount vault.total_shares shares vt.amount = Except.ok amount ∧
      spl_transfer vt ut amount = some acc ∧
      r = { vault := { vault with total_shares := vault.total_shares - shares }
            user_position := { up with shares := up.shares - shares }
            vault_token := acc.1
            user_token := acc.2
            event := { user := user, amount := amount, shares := shares } } := by
  unfold withdraw at h
  by_cases hc : up.shares < shares
  · simp [hc] at h
  · simp only [hc, if_false, if_neg] at h
    rw [except_bind_ok] at h
    obtain ⟨amount, hA, h⟩ := h
    rw [except_bind_ok] at h
    obtain ⟨acc, hT, h⟩ := h
    rw [liftOpt_ok_iff] at hT
    rw [except_bind_ok] at h
    obtain ⟨ups, hU, h⟩ := h
    rw [liftOpt_ok_iff, checked_sub_eq_some] at hU
    rw [except_bind_ok] at h
    obtain ⟨ts, hV, h⟩ := h
    rw [liftOpt_ok_iff, checked_sub_eq_some] at hV
    obtain ⟨hU1, rfl⟩ := hU
    obtain ⟨hV1, rfl⟩ := hV
    cases h
    exact ⟨hU1, hV1, amount, acc, hA, hT, rfl⟩

theorem execute_arbitrage_ok_elim {vault : Vault} {vt et : TokenAccount}
    {ex srp : Pubkey} {data : List Nat} {mp : Nat} {so : Option Nat}
    {r : ArbResult}
    (h : execute_arbitrage vault vt et ex srp data mp so = Except.ok r) :
    vt.mint = WSOL_MINT ∧ et.mint = WSOL_MINT ∧ vt.amount ≠ 0 ∧ mp ≠ 0 ∧
    ∃ fb acc, so = some fb ∧ vt.amount < fb ∧ mp ≤ fb - vt.amount ∧
      (fb - vt.amount) * 10 < U64_SIZE ∧
      spl_transfer { vt with amount := fb } et ((fb - vt.amount) * 10 / 100)
        = some acc ∧
      r = { vault := vault
            vault_token := acc.1
            executor_token := acc.2
            event := { executor := ex, profit := fb - vt.amount,
                       executor_fee := (fb - vt.amount) * 10 / 100,
                       vault_profit :=
                         fb - vt.amount - (fb - vt.amount) * 10 / 100 } } := by
  unfold execute_arbitrage at h
  by_cases h1 : vt.mint = WSOL_MINT
  · by_cases h2 : et.mint = WSOL_MINT
    · by_cases h3 : vt.amount = 0
      · simp [h1, h2, h3] at h
      · by_cases h4 : mp = 0
        · simp [h1, h2, h3, h4] at h
        · simp only [h1, h2, h3, h4, ne_eq, not_true_eq_false, if_false,
            not_false_eq_true, if_neg, if_true, ite_self] at h
          rw [except_bind_ok] at h
          obtain ⟨fb, hF, h⟩ := h
          rw [liftOpt_ok_iff] at hF
          by_cases h5 : fb ≤ vt.amount
          · simp [h5] at h
          · simp only [h5, if_false, if_neg] at h
            rw [except_bind_ok] at h
            obtain ⟨profit, hP, h⟩ := h
            rw [liftOpt_ok_iff, checked_sub_eq_some] at hP
            obtain ⟨hP1, rfl⟩ := hP
            by_cases h6 : fb - vt.amount < mp
            · simp [h6] at h
            · simp only [h6, if_false, if_neg] at h
              rw [except_bind_ok] at h
              obtain ⟨p10, hM, h⟩ := h
              rw [liftOpt_ok_iff, checked_mul_eq_some] at hM
              obtain ⟨hM1, rfl⟩ := hM
              rw [except_bind_ok] at h
              obtain ⟨fee, hD, h⟩ := h
              rw [liftOpt_ok_iff, checked_div_eq_some] at hD
              obtain ⟨-, rfl⟩ := hD
              rw [except_bind_ok] at h
              obtain ⟨acc, hT, h⟩ := h
              rw [liftOpt_ok_iff] at hT
              rw [show WSOL_MINT = vt.mint from h1.symm] at hT
              cases h
              exact ⟨h1, h2, h3, h4, fb, acc, hF, by omega, by omega, hM1,
                hT, rfl⟩
    · simp [h1, h2] at h
  · simp [h1] at h

theorem sumShares_append (pre post : List UserPosition) (q : UserPosition) :
    sumShares (pre ++ q :: post) = sumShares pre + q.shares + sumShares post := by
  simp [sumShares]
  omega

end Helpers

/-- C1: every successful Deposit adds the minted share count to both the
depositor's position and the vault's total_shares, every successful Withdraw
subtracts the same share count from both, and a successful Execute-Arbitrage
touches neither; hence the invariant total_shares = sum of all
UserPosition.shares of the vault is preserved by all three instructions
(the touched position sits anywhere inside the list of positions). -/
theorem C1_total_shares_eq_sum_preserved :
    (∀ (vault : Vault) (up : UserPosition) (user : Pubkey)
       (ut vt : TokenAccount) (amount : Nat) (r : DepositResult)
       (pre post : List UserPosition),
        deposit vault up user ut vt amount = Except.ok r →
        sumShares (pre ++ up :: post) = vault.total_shares →
        sumShares (pre ++ r.user_position :: post) = r.vault.total_shares) ∧
    (∀ (vault : Vault) (up : UserPosition) (user : Pubkey)
       (vt ut : TokenAccount) (shares : Nat) (r : WithdrawResult)
       (pre post : List UserPosition),
        withdraw vault up user vt ut shares = Except.ok r →
        sumShares (pre ++ up :: post) = vault.total_shares →
        sumShares (pre ++ r.user_position :: post) = r.vault.total_shares) ∧
    (∀ (vault : Vault) (vt et : TokenAccount) (ex srp : Pubkey)
       (data : List Nat) (mp : Nat) (so : Option Nat) (r : ArbResult),
        execute_arbitrage vault vt et ex srp data mp so = Except.ok r →
        r.vault.total_shares = vault.total_shares) := by
  refine ⟨?_, ?_, ?_⟩
  · intro vault up user ut vt amount r pre post h hsum
    obtain ⟨acc, shares, -, -, -, -, rfl⟩ := deposit_ok_elim h
    rw [sumShares_append] at hsum ⊢
    dsimp only
    omega
  · intro vault up user vt ut shares r pre post h hsum
    obtain ⟨hle, hle2, amount, acc, -, -, rfl⟩ := withdraw_ok_elim h
    rw [sumShares_append] at hsum ⊢
    dsimp only
    omega
  · intro vault vt et ex srp data mp so r h
    obtain ⟨-, -, -, -, fb, acc, -, -, -, -, -, rfl⟩ :=
      execute_arbitrage_ok_elim h
    rfl

/-- Witness for C1: a first deposit of 100 into an empty vault, a withdrawal
of 40 of 100 shares from a pool of 100, and an arbitrage run, each checked
against the preserved invariant at those concrete states. -/
theorem C1_total_shares_eq_sum_preserved_witness :
    sumShares ([] ++ ({ owner := 5, shares := 100 } : UserPosition) :: [])
      = ({ authority := 7, swap_router := 8, total_shares := 100, bump := 255 } :
          Vault).total_shares ∧
    sumShares ([] ++ ({ owner := 5, shares := 60 } : UserPosition) :: [])
      = ({ authority := 7, swap_router := 8, total_shares := 60, bump := 255 } :
          Vault).total_shares ∧
    ({ authority := 7, swap_router := 8, total_shares := 100, bump := 255 } :
        Vault).total_shares
      = ({ authority := 7, swap_router := 8, total_shares := 100, bump := 255 } :
          Vault).total_shares :=
  ⟨C1_total_shares_eq_sum_preserved.1
      ⟨7, 8, 0, 255⟩ ⟨5, 0⟩ 5 ⟨1, 100⟩ ⟨1, 0⟩ 100
      ⟨⟨7, 8, 100, 255⟩, ⟨5, 100⟩, ⟨1, 0⟩, ⟨1, 100⟩, ⟨5, 100, 100⟩⟩ [] []
      rfl rfl,
   C1_total_shares_eq_sum_preserved.2.1
      ⟨7, 8, 100, 255⟩ ⟨5, 100⟩ 5 ⟨1, 100⟩ ⟨1, 0⟩ 40
      ⟨⟨7, 8, 60, 255⟩, ⟨5, 60⟩, ⟨1, 60⟩, ⟨1, 40⟩, ⟨5, 40, 40⟩⟩ [] []
      rfl rfl,
   C1_total_shares_eq_sum_preserved.2.2
      ⟨7, 8, 100, 255⟩ ⟨1, 1000⟩ ⟨1, 0⟩ 9 3 [1] 50 (some 1100)
      ⟨⟨7, 8, 100, 255⟩, ⟨1, 1090⟩, ⟨1, 10⟩, ⟨9, 100, 10, 90⟩⟩
      rfl⟩

/-- C2: for every successful Deposit(amount), the minted shares equal amount
when total_shares is zero and floor(amount * total_shares / B) otherwise,
where B is the pool balance prior to crediting this deposit - equivalently the
post-transfer vault balance minus amount - even though the transfer precedes
the division in the code (the Anchor account cache is not reloaded). -/
theorem C2_deposit_divisor_is_pre_transfer_balance
    (vault : Vault) (up : UserPosition) (user : Pubkey)
    (ut vt : TokenAccount) (amount : Nat) (r : DepositResult)
    (h : deposit vault up user ut vt amount = Except.ok r) :
    r.event.shares = (if vault.total_shares = 0 then amount
                      else amount * vault.total_shares / vt.amount) ∧
    vt.amount = r.vault_token.amount - amount := by
  obtain ⟨acc, shares, hT, hS, -, -, rfl⟩ := deposit_ok_elim h
  rw [spl_transfer_eq_some] at hT
  obtain ⟨h1, h2, rfl⟩ := hT
  rw [depositShares_ok_iff] at hS
  constructor
  · dsimp only
    rcases hS with ⟨h0, rfl⟩ | ⟨h0, -, -, rfl⟩ <;> simp [h0]
  · dsimp only
    omega

/-- Witness for C2: the spec's second-depositor example - 500 deposited into a
pool holding 1000 pre-transfer with 1000 outstanding shares mints
floor(500*1000/1000) = 500 shares, the divisor being the pre-transfer
balance 1000 = 1500 - 500. -/
theorem C2_deposit_divisor_witness :
    (⟨6, 500, 500⟩ : Deposited).shares
        = (if (1000 : Nat) = 0 then 500 else 500 * 1000 / 1000) ∧
    (1000 : Nat) = 1500 - 500 :=
  C2_deposit_divisor_is_pre_transfer_balance
    ⟨7, 8, 1000, 255⟩ ⟨6, 0⟩ 6 ⟨1, 500⟩ ⟨1, 1000⟩ 500
    ⟨⟨7, 8, 1500, 255⟩, ⟨6, 500⟩, ⟨1, 0⟩, ⟨1, 1500⟩, ⟨6, 500, 500⟩⟩ rfl

/-- C3 counterexample: with pool balance 1500, total_shares 1500 and a
redemption of 500 shares (the spec's own worked example) the code transfers
500, while the claim's literal formula
floor(shares * pool_balance * 2^64 / total_shares) taken as a 64-bit value
yields 0; under the alternative reading (checked 64-bit conversion) the
operation would have to fail, yet it succeeds. -/
theorem C3_withdraw_formula_counterexample :
    withdraw ⟨7, 8, 1500, 255⟩ ⟨5, 500⟩ 5 ⟨1, 1500⟩ ⟨1, 0⟩ 500
      = Except.ok ⟨⟨7, 8, 1000, 255⟩, ⟨5, 0⟩, ⟨1, 1000⟩, ⟨1, 500⟩,
          ⟨5, 500, 500⟩⟩ ∧
    (⟨5, 500, 500⟩ : Withdrawn).amount = 500 ∧
    specLiteralWithdrawAmount 500 1500 1500 = 0 ∧
    500 * 1500 * 2 ^ 64 / 1500 ≥ U64_SIZE := by
  refine ⟨rfl, rfl, ?_, ?_⟩
  · decide
  · decide

/-- C3 amended: for every successful Withdraw(shares), full redemption
(shares = total_shares) transfers the entire pool balance, draining rounding
dust; otherwise the amount is floor(shares * pool_balance / total_shares)
computed with 128-bit intermediates (the product stays below 2^128) and
required to fit in 64 bits. -/
theorem C3_amended_withdraw_amount
    (vault : Vault) (up : UserPosition) (user : Pubkey)
    (vt ut : TokenAccount) (shares : Nat) (r : WithdrawResult)
    (h : withdraw vault up user vt ut shares = Except.ok r) :
    (shares = vault.total_shares → r.event.amount = vt.amount) ∧
    (shares ≠ vault.total_shares →
      r.event.amount = shares * vt.amount / vault.total_shares ∧
      shares * vt.amount < U128_SIZE ∧
      r.event.amount < U64_SIZE) := by
  obtain ⟨-, -, amount, acc, hA, -, rfl⟩ := withdraw_ok_elim h
  rw [withdrawAmount_ok_iff] at hA
  dsimp only
  constructor
  · intro hfull
    rcases hA with ⟨-, rfl⟩ | ⟨hne, -⟩
    · rfl
    · exact absurd hfull hne
  · intro hne
    rcases hA with ⟨hfull, -⟩ | ⟨-, hn, -, hfit, rfl⟩
    · exact absurd hfull hne
    · exact ⟨rfl, hn, hfit⟩

/-- Witness for C3 amended: redeeming 600 of 1500 shares against a pool of
1500 transfers floor(600*1500/1500) = 600, within both width bounds. -/
theorem C3_amended_withdraw_amount_witness :
    (⟨5, 600, 600⟩ : Withdrawn).amount = 600 * 1500 / 1500 ∧
    600 * 1500 < U128_SIZE ∧
    (⟨5, 600, 600⟩ : Withdrawn).amount < U64_SIZE :=
  (C3_amended_withdraw_amount ⟨7, 8, 1500, 255⟩ ⟨5, 600⟩ 5 ⟨1, 1500⟩ ⟨1, 0⟩ 600
      ⟨⟨7, 8, 900, 255⟩, ⟨5, 0⟩, ⟨1, 900⟩, ⟨1, 600⟩, ⟨5, 600, 600⟩⟩ rfl).2
    (by decide)

/-- C4 counterexample: a depositor holding all 100 outstanding shares of a
pool of 200 deposits 100 (minting floor(100*100/200) = 50 shares) and then
withdraws all 150 of their shares; the full-redemption branch pays out the
whole pool of 300, strictly more than the 100 deposited. -/
theorem C4_roundtrip_counterexample :
    deposit ⟨7, 8, 100, 255⟩ ⟨5, 100⟩ 5 ⟨1, 100⟩ ⟨1, 200⟩ 100
      = Except.ok ⟨⟨7, 8, 150, 255⟩, ⟨5, 150⟩, ⟨1, 0⟩, ⟨1, 300⟩,
          ⟨5, 100, 50⟩⟩ ∧
    withdraw ⟨7, 8, 150, 255⟩ ⟨5, 150⟩ 5 ⟨1, 300⟩ ⟨1, 0⟩ 150
      = Except.ok ⟨⟨7, 8, 0, 255⟩, ⟨5, 0⟩, ⟨1, 0⟩, ⟨1, 300⟩,
          ⟨5, 300, 150⟩⟩ ∧
    100 < (⟨5, 300, 150⟩ : Withdrawn).amount := by
  refine ⟨rfl, rfl, ?_⟩
  decide

/-- C4 amended: when the pool balance before the deposit is zero (so the
depositor's pre-existing pool value is zero), a successful Deposit(amount) by
the sole shareholder followed by a successful Withdraw of all of that
depositor's shares returns at most amount - rounding never invents value. -/
theorem C4_amended_roundtrip_at_most_amount
    (vault : Vault) (up : UserPosition) (user : Pubkey)
    (ut vt ut2 : TokenAccount) (amount : Nat)
    (r : DepositResult) (w : WithdrawResult)
    (hB : vt.amount = 0) (hsole : up.shares = vault.total_shares)
    (hd : deposit vault up user ut vt amount = Except.ok r)
    (hw : withdraw r.vault r.user_position user r.vault_token ut2
            r.user_position.shares = Except.ok w) :
    w.event.amount ≤ amount := by
  obtain ⟨acc, shares, hT, hS, -, -, rfl⟩ := deposit_ok_elim hd
  rw [spl_transfer_eq_some] at hT
  obtain ⟨-, -, rfl⟩ := hT
  rw [depositShares_ok_iff] at hS
  rcases hS with ⟨h0, rfl⟩ | ⟨-, -, hb, -⟩
  · obtain ⟨-, -, wamt, acc2, hA, -, rfl⟩ := withdraw_ok_elim hw
    rw [withdrawAmount_ok_iff] at hA
    dsimp only at hA ⊢
    rcases hA with ⟨-, rfl⟩ | ⟨hne, -⟩
    · omega
    · exact absurd rfl (by rw [hsole] at hne; exact hne)
  · exact absurd hB hb

/-- Witness for C4 amended: depositing 100 into an empty pool mints 100
shares; withdrawing all 100 returns exactly 100 ≤ 100. -/
theorem C4_amended_roundtrip_witness :
    (⟨5, 100, 100⟩ : Withdrawn).amount ≤ 100 :=
  C4_amended_roundtrip_at_most_amount
    ⟨7, 8, 0, 255⟩ ⟨5, 0⟩ 5 ⟨1, 100⟩ ⟨1, 0⟩ ⟨1, 0⟩ 100
    ⟨⟨7, 8, 100, 255⟩, ⟨5, 100⟩, ⟨1, 0⟩, ⟨1, 100⟩, ⟨5, 100, 100⟩⟩
    ⟨⟨7, 8, 0, 255⟩, ⟨5, 0⟩, ⟨1, 0⟩, ⟨1, 100⟩, ⟨5, 100, 100⟩⟩
    rfl rfl rfl rfl

/-- C5: for every successful Execute-Arbitrage the recorded profit is
final_balance - initial_balance, the executor fee is floor(profit * 10 / 100),
the vault-retained profit is profit - executor_fee, and the pool balance after
the fee payout is final_balance - executor_fee. -/
theorem C5_fee_split
    (vault : Vault) (vt et : TokenAccount) (ex srp : Pubkey)
    (data : List Nat) (mp fb : Nat) (r : ArbResult)
    (h : execute_arbitrage vault vt et ex srp data mp (some fb) = Except.ok r) :
    r.event.profit = fb - vt.amount ∧
    r.event.executor_fee = r.event.profit * 10 / 100 ∧
    r.event.vault_profit = r.event.profit - r.event.executor_fee ∧
    r.vault_token.amount = fb - r.event.executor_fee := by
  obtain ⟨-, -, -, -, fb2, acc, hso, -, -, -, hT, rfl⟩ :=
    execute_arbitrage_ok_elim h
  cases hso
  rw [spl_transfer_eq_some] at hT
  obtain ⟨-, -, rfl⟩ := hT
  exact ⟨rfl, rfl, rfl, rfl⟩

/-- Witness for C5: the spec's worked example - initial balance 1000, final
balance 1100, min_profit 50 - yields profit 100, executor fee 10, vault
profit 90 and a pool of 1090 after payout. -/
theorem C5_fee_split_witness :
    (⟨9, 100, 10, 90⟩ : ArbitrageExecuted).profit = 1100 - 1000 ∧
    (⟨9, 100, 10, 90⟩ : ArbitrageExecuted).executor_fee
      = (⟨9, 100, 10, 90⟩ : ArbitrageExecuted).profit * 10 / 100 ∧
    (⟨9, 100, 10, 90⟩ : ArbitrageExecuted).vault_profit
      = (⟨9, 100, 10, 90⟩ : ArbitrageExecuted).profit
        - (⟨9, 100, 10, 90⟩ : ArbitrageExecuted).executor_fee ∧
    (⟨1, 1090⟩ : TokenAccount).amount
      = 1100 - (⟨9, 100, 10, 90⟩ : ArbitrageExecuted).executor_fee :=
  C5_fee_split ⟨7, 8, 100, 255⟩ ⟨1, 1000⟩ ⟨1, 0⟩ 9 3 [1] 50 1100
    ⟨⟨7, 8, 100, 255⟩, ⟨1, 1090⟩, ⟨1, 10⟩, ⟨9, 100, 10, 90⟩⟩ rfl

/-- C6: whenever an Execute-Arbitrage run reaches the profit check (asset
mints match, pool nonempty, min_profit positive, swap CPI succeeded) and the
re-read final balance does not strictly exceed the initial one, or the profit
is below min_profit, the instruction fails with InsufficientProfit. The error
return is the whole outcome: no fee transfer, no settlement record, and under
the host runtime's atomicity every effect - the forwarded swap included - is
rolled back, leaving the pool balance and vault state unchanged. -/
theorem C6_insufficient_profit_rollback
    (vault : Vault) (vt et : TokenAccount) (ex srp : Pubkey)
    (data : List Nat) (mp fb : Nat)
    (h1 : vt.mint = WSOL_MINT) (h2 : et.mint = WSOL_MINT)
    (h3 : vt.amount ≠ 0) (h4 : mp ≠ 0)
    (h5 : fb ≤ vt.amount ∨ fb - vt.amount < mp) :
    execute_arbitrage vault vt et ex srp data mp (some fb)
      = Except.error (VaultErr.code ErrorCode.InsufficientProfit) := by
  unfold execute_arbitrage
  by_cases h6 : fb ≤ vt.amount
  · simp [h1, h2, h3, h4, h6, liftOpt, Bind.bind, Except.bind]
  · have h7 : fb - vt.amount < mp := by omega
    have h8 : vt.amount ≤ fb := by omega
    simp [h1, h2, h3, h4, h6, h7, h8, liftOpt, Bind.bind, Except.bind,
      checked_sub]

/-- Witness for C6: initial balance 1000 and final balance 1000 (no profit)
with min_profit 50 ends in InsufficientProfit. -/
theorem C6_insufficient_profit_witness :
    execute_arbitrage ⟨7, 8, 100, 255⟩ ⟨1, 1000⟩ ⟨1, 0⟩ 9 3 [1] 50 (some 1000)
      = Except.error (VaultErr.code ErrorCode.InsufficientProfit) :=
  C6_insufficient_profit_rollback ⟨7, 8, 100, 255⟩ ⟨1, 1000⟩ ⟨1, 0⟩ 9 3 [1]
    50 1000 rfl rfl (by decide) (by decide) (Or.inl (by decide))

/-- C7 counterexample: in delegated mode (execute_vault_jupiter_swap) an
empty instruction payload is not rejected: with a valid aggregator program the
instruction succeeds and the Jupiter cross-call is attempted carrying the
empty payload, instead of failing with EmptyInstructionData beforehand. -/
theorem C7_empty_payload_counterexample :
    execute_vault_jupiter_swap ⟨3, 30, 5, 0, 254⟩ 4 JUPITER_V6 [] [[118]] true
      = ([{ data := [], delegated := true }],
         Except.ok ⟨3, 30, 5, 0, 254⟩) := rfl

/-- C7 amended: in direct signing mode an empty instruction payload fails
with EmptyInstructionData before any cross-call is attempted (the trace of
Jupiter invocations is empty); in delegated mode no emptiness validation is
performed - the forward proceeds and the cross-call is attempted even with an
empty payload. -/
theorem C7_amended_empty_payload_direct_only :
    (∀ (router : RouterState) (cpiOk : Bool),
        execute_jupiter_swap router JUPITER_V6 [] cpiOk
          = ([], Except.error
              (RouterErr.code RouterErrorCode.EmptyInstructionData))) ∧
    (∀ (router : RouterState) (va : Pubkey) (seeds : List (List Nat)),
        execute_vault_jupiter_swap router va JUPITER_V6 [] seeds true
          = ([{ data := [], delegated := true }], Except.ok router)) := by
  constructor
  · intro router cpiOk
    simp [execute_jupiter_swap]
  · intro router va seeds
    simp [execute_vault_jupiter_swap]

/-- C8 counterexample: a fully successful delegated-mode forward returns the
router state unchanged - total_swaps stays 5 instead of becoming 6 - so not
every successful forwarded swap increments RouterState.total_swaps by 1. -/
theorem C8_total_swaps_counterexample :
    execute_vault_jupiter_swap ⟨3, 30, 5, 0, 254⟩ 4 JUPITER_V6 [7] [[118]] true
      = ([{ data := [7], delegated := true }],
         Except.ok ⟨3, 30, 5, 0, 254⟩) := rfl

/-- C8 amended: every successful direct-mode forwarded swap increments
total_swaps by exactly 1, while a successful delegated-mode forward leaves the
entire router state (total_swaps included) unchanged; the counter therefore
counts exactly the fully-successful direct-mode forwards and never
decreases. -/
theorem C8_amended_total_swaps_direct_only :
    (∀ (router : RouterState) (jp : Pubkey) (data : List Nat) (cpiOk : Bool)
       (tr : List JupiterInvoke) (router2 : RouterState),
        execute_jupiter_swap router jp data cpiOk = (tr, Except.ok router2) →
        router2.total_swaps = router.total_swaps + 1) ∧
    (∀ (router : RouterState) (va jp : Pubkey) (data : List Nat)
       (seeds : List (List Nat)) (cpiOk : Bool) (tr : List JupiterInvoke)
       (router2 : RouterState),
        execute_vault_jupiter_swap router va jp data seeds cpiOk
          = (tr, Except.ok router2) →
        router2 = router) := by
  constructor
  · intro router jp data cpiOk tr router2 h
    unfold execute_jupiter_swap at h
    by_cases hj : jp = JUPITER_V6
    · by_cases hd : data = []
      · simp [hj, hd] at h
      · simp only [hj, hd, ne_eq, not_true_eq_false, if_false,
          not_false_eq_true, if_neg, ite_self] at h
        cases hca : checked_add router.total_swaps 1 with
        | none => rw [hca] at h; simp at h
        | some n =>
          rw [hca] at h
          rw [checked_add_eq_some] at hca
          obtain ⟨-, rfl⟩ := hca
          cases cpiOk with
          | false => simp at h
          | true =>
            simp only [if_true, Prod.mk.injEq, Except.ok.injEq] at h
            obtain ⟨-, rfl⟩ := h
            rfl
    · simp [hj] at h
  · intro router va jp data seeds cpiOk tr router2 h
    unfold execute_vault_jupiter_swap at h
    by_cases hj : jp = JUPITER_V6
    · cases cpiOk with
      | false => simp [hj] at h
      | true =>
        simp only [hj, ne_eq, not_true_eq_false, if_false, not_false_eq_true,
          if_neg, if_true, Prod.mk.injEq, Except.ok.injEq] at h
        exact h.2.symm
    · simp [hj] at h

/-- Witness for C8 amended: a direct-mode forward takes total_swaps from 5 to
6; a delegated-mode forward leaves the router record untouched. -/
theorem C8_amended_total_swaps_witness :
    (⟨3, 30, 6, 0, 254⟩ : RouterState).total_swaps
      = (⟨3, 30, 5, 0, 254⟩ : RouterState).total_swaps + 1 ∧
    (⟨3, 30, 5, 0, 254⟩ : RouterState) = ⟨3, 30, 5, 0, 254⟩ :=
  ⟨C8_amended_total_swaps_direct_only.1 ⟨3, 30, 5, 0, 254⟩ JUPITER_V6 [7] true
      [{ data := [7], delegated := false }] ⟨3, 30, 6, 0, 254⟩ rfl,
   C8_amended_total_swaps_direct_only.2 ⟨3, 30, 5, 0, 254⟩ 4 JUPITER_V6 [7]
      [[118]] true [{ data := [7], delegated := true }] ⟨3, 30, 5, 0, 254⟩
      rfl⟩

/-- C9: execute_arbitrage never inspects the supplied swap_router_program
account: its outcome is identical for any two values of that account, and
with the preconditions met the run always proceeds to the delegated forward
(here observed through the CPI outcome) without raising any error about the
account's identity. -/
theorem C9_no_swap_router_identity_check :
    (∀ (vault : Vault) (vt et : TokenAccount) (ex p1 p2 : Pubkey)
       (data : List Nat) (mp : Nat) (so : Option Nat),
        execute_arbitrage vault vt et ex p1 data mp so
          = execute_arbitrage vault vt et ex p2 data mp so) ∧
    (∀ (vault : Vault) (vt et : TokenAccount) (ex p : Pubkey)
       (data : List Nat) (mp : Nat),
        vt.mint = WSOL_MINT → et.mint = WSOL_MINT →
        vt.amount ≠ 0 → mp ≠ 0 →
        execute_arbitrage vault vt et ex p data mp none
          = Except.error VaultErr.swapFailed) := by
  constructor
  · intro vault vt et ex p1 p2 data mp so
    rfl
  · intro vault vt et ex p data mp h1 h2 h3 h4
    simp [execute_arbitrage, h1, h2, h3, h4, liftOpt, Bind.bind, Except.bind]

/-- Witness for C9: two different swap_router_program accounts (3 and 4) give
the same outcome, and with valid preconditions the run reaches the forward
(whose failure is what surfaces) for an arbitrary program account. -/
theorem C9_no_swap_router_identity_check_witness :
    execute_arbitrage ⟨7, 8, 100, 255⟩ ⟨1, 1000⟩ ⟨1, 0⟩ 9 3 [1] 50 none
      = execute_arbitrage ⟨7, 8, 100, 255⟩ ⟨1, 1000⟩ ⟨1, 0⟩ 9 4 [1] 50 none ∧
    execute_arbitrage ⟨7, 8, 100, 255⟩ ⟨1, 1000⟩ ⟨1, 0⟩ 9 3 [1] 50 none
      = Except.error VaultErr.swapFailed :=
  ⟨C9_no_swap_router_identity_check.1 ⟨7, 8, 100, 255⟩ ⟨1, 1000⟩ ⟨1, 0⟩ 9 3 4
      [1] 50 none,
   C9_no_swap_router_identity_check.2 ⟨7, 8, 100, 255⟩ ⟨1, 1000⟩ ⟨1, 0⟩ 9 3
      [1] 50 rfl rfl (by decide) (by decide)⟩

/-- C10: when total_shares is zero, Withdraw(0) by any position holder is not
rejected: the request takes the full-redemption branch (0 = total_shares) and
succeeds, transferring the entire pool balance to the user's token account
and leaving total_shares at 0 (the only proviso is that the receiving balance
stays within u64, or the transfer CPI itself fails). -/
theorem C10_zero_share_withdraw_drains_pool
    (vault : Vault) (up : UserPosition) (user : Pubkey) (vt ut : TokenAccount)
    (h0 : vault.total_shares = 0)
    (hcap : ut.amount + vt.amount < U64_SIZE) :
    withdraw vault up user vt ut 0
      = Except.ok
        { vault := { vault with total_shares := 0 }
          user_position := up
          vault_token := { vt with amount := 0 }
          user_token := { ut with amount := ut.amount + vt.amount }
          event := { user := user, amount := vt.amount, shares := 0 } } := by
  unfold withdraw
  simp [h0, withdrawAmount, liftOpt, Bind.bind, Except.bind, spl_transfer,
    hcap, checked_sub]

/-- Witness for C10: total_shares 0, a user position of 3 shares and a pool of
500: Withdraw(0) succeeds, moves all 500 to the user and keeps total_shares
at 0. -/
theorem C10_zero_share_withdraw_witness :
    withdraw ⟨7, 8, 0, 255⟩ ⟨5, 3⟩ 5 ⟨1, 500⟩ ⟨1, 20⟩ 0
      = Except.ok ⟨⟨7, 8, 0, 255⟩, ⟨5, 3⟩, ⟨1, 0⟩, ⟨1, 520⟩, ⟨5, 500, 0⟩⟩ :=
  C10_zero_share_withdraw_drains_pool ⟨7, 8, 0, 255⟩ ⟨5, 3⟩ 5 ⟨1, 500⟩
    ⟨1, 20⟩ rfl (by decide)

end AtomX
